import Mathlib

/-!
# Verification of the LCaDRE core (lcadre.py)

Shallow embedding of the signature-construction, pairing, counting and
estimation pipeline of `lcadre.py`.  Alignment records are modelled as the
fields the code reads from a `pysam.AlignedSegment`; the `Counter` is a
multiset of signature keys; floating-point arithmetic is modelled over `ℚ`
(exact field arithmetic), with the `exp`-dependent quantities over `ℝ`.
Python's `ZeroDivisionError` / `ValueError` are modelled with `Except`:
`perform_estimation` tests each divisor for zero at exactly the program
point where Python would execute the corresponding division, in the same
order, and fails there.
-/

/-- The fields of a `pysam.AlignedSegment` that `lcadre.py` reads.
`reference_name`, `reference_start`, `reference_end` may be absent (`None`);
`query_alignment_start` is the number of soft-clipped leading bases. -/
structure AlignedSegment where
  query_name : String
  reference_name : Option String := none
  reference_start : Option Int := none
  reference_end : Option Int := none
  is_reverse : Bool := false
  query_alignment_start : Int := 0
  is_secondary : Bool := false
  is_supplementary : Bool := false
deriving DecidableEq, Repr

/-- Python errors raised by the embedded code. -/
inductive PyErr where
  | zeroDivision (msg : String)
  | valueError (msg : String)
deriving DecidableEq, Repr

/-- `Lcadre.get_pos`: 5' start coordinate of a read corrected for soft
clipping, or `none` if the read has no reference start/end. -/
def get_pos (read : AlignedSegment) : Option Int :=
  if read.reference_start = none ∨ read.reference_end = none then
    none
  else if read.is_reverse then
    some (read.reference_end.getD 0 + read.query_alignment_start)
  else
    some (read.reference_start.getD 0 - read.query_alignment_start)

/-- Rendering of an optional value the way Python's f-string renders it
(`None` for the absent marker). -/
def pyStrInt : Option Int → String
  | none => "None"
  | some i => toString i

/-- Rendering of an optional reference name the way Python's f-string does. -/
def pyStrRef : Option String → String
  | none => "None"
  | some s => s

/-- `Lcadre.get_read_string`: per-read key
`"{reference_name}.{pos}.{strand}"`, or `"-1"` for a read with no
reference start/end. -/
def get_read_string (read : AlignedSegment) (pos : Option Int) : String :=
  if read.reference_start = none ∨ read.reference_end = none then
    "-1"
  else
    let strand := if read.is_reverse then "-" else "+"
    pyStrRef read.reference_name ++ "." ++ pyStrInt pos ++ "." ++ strand

/-- Python string comparison `a < b`: lexicographic on code points, which is
the lexicographic order on the strings' character lists. -/
def pyStrLt (a b : String) : Prop := a.data < b.data

instance (a b : String) : Decidable (pyStrLt a b) := by
  unfold pyStrLt
  exact inferInstance

/-- Python `a > b` on two optional reference names; only ever evaluated by
`order_pair` when both are present. -/
def optRefGt : Option String → Option String → Bool
  | some a, some b => decide (pyStrLt b a)
  | _, _ => false

/-- Python `pos_a > pos_b` on two optional positions; only ever evaluated by
`order_pair` when both are present. -/
def optPosGt : Option Int → Option Int → Bool
  | some x, some y => decide (y < x)
  | _, _ => false

/-- The `flip` flag computed by `Lcadre.order_pair`, branch for branch. -/
def order_pair_flip (read_a : AlignedSegment) (pos_a : Option Int)
    (read_b : AlignedSegment) (pos_b : Option Int) : Bool :=
  if read_a.reference_name = none ∧ read_b.reference_name = none then false
  else if read_b.reference_name = none then false
  else if read_a.reference_name = none ∧ read_b.reference_name ≠ none then true
  else if optRefGt read_a.reference_name read_b.reference_name then true
  else if read_a.reference_name = read_b.reference_name then
    if pos_a = none ∧ pos_b ≠ none then true
    else if pos_a ≠ none ∧ pos_b ≠ none ∧ optPosGt pos_a pos_b then true
    else false
  else false

/-- `Lcadre.order_pair`: order the reads of a pair; returns the possibly
flipped quadruple `(read_a, pos_a, read_b, pos_b)`. -/
def order_pair (read_a : AlignedSegment) (pos_a : Option Int)
    (read_b : AlignedSegment) (pos_b : Option Int) :
    AlignedSegment × Option Int × AlignedSegment × Option Int :=
  if order_pair_flip read_a pos_a read_b pos_b then
    (read_b, pos_b, read_a, pos_a)
  else
    (read_a, pos_a, read_b, pos_b)

/-- The compound signature key built by `Lcadre.process_pair`:
`f"{str_a}.{str_b}"` after position correction and ordering. -/
def pair_key (read_a read_b : AlignedSegment) : String :=
  let pos_a := get_pos read_a
  let pos_b := get_pos read_b
  let o := order_pair read_a pos_a read_b pos_b
  get_read_string o.1 o.2.1 ++ "." ++ get_read_string o.2.2.1 o.2.2.2

/-- `Lcadre.process_pair` acting on the counter: increment the pair's
signature count by one (the counter is the multiset of inserted keys). -/
def process_pair (counter : Multiset String)
    (read_pair : AlignedSegment × AlignedSegment) : Multiset String :=
  pair_key read_pair.1 read_pair.2 ::ₘ counter

/-- The counter after ingesting a list of read pairs into an empty counter
(`Lcadre.read_input` over `process_pair`). -/
def counter_of (pairs : List (AlignedSegment × AlignedSegment)) : Multiset String :=
  (pairs.map fun p => pair_key p.1 p.2 : List String)

/-- `Lcadre.pair_generator`, one step per record: `pending` is the held
unpaired record (`read_a` in the source). -/
def pair_generator_aux : Option AlignedSegment → List AlignedSegment →
    List (AlignedSegment × AlignedSegment)
  | _, [] => []
  | pending, read :: rest =>
    if read.is_secondary || read.is_supplementary then
      pair_generator_aux pending rest
    else
      match pending with
      | none => pair_generator_aux (some read) rest
      | some read_a =>
        if read.query_name = read_a.query_name then
          (read_a, read) :: pair_generator_aux none rest
        else
          pair_generator_aux (some read) rest

/-- `Lcadre.pair_generator` over a finite stream of alignment records. -/
def pair_generator (reads : List AlignedSegment) :
    List (AlignedSegment × AlignedSegment) :=
  pair_generator_aux none reads

/-! ## The diversity estimator (`Lcadre.perform_estimation`, `Lcadre.calc_s_ind`)

The frozen `Counter` is passed as its item list `tbl : List (String × ℕ)`
(signature, count); the loop accumulators become one definition each. -/

/-- Loop accumulator `self.singletons`: signatures with count exactly 1. -/
def countSingletons (tbl : List (String × ℕ)) : ℕ :=
  (tbl.filter fun e => e.2 = 1).length

/-- Loop accumulator `self.doubletons`: signatures with count exactly 2. -/
def countDoubletons (tbl : List (String × ℕ)) : ℕ :=
  (tbl.filter fun e => e.2 = 2).length

/-- Loop accumulator `others`: signatures with count neither 1 nor 2. -/
def countOthers (tbl : List (String × ℕ)) : ℕ :=
  (tbl.filter fun e => ¬(e.2 = 1) ∧ ¬(e.2 = 2)).length

/-- Loop accumulator `self.s_rare`: signatures with count at most `r`. -/
def sRareD (tbl : List (String × ℕ)) (r : ℕ) : ℕ :=
  (tbl.filter fun e => e.2 ≤ r).length

/-- Loop accumulator `self.x_rare`: summed abundance of the rare signatures. -/
def xRareD (tbl : List (String × ℕ)) (r : ℕ) : ℕ :=
  ((tbl.filter fun e => e.2 ≤ r).map fun e => e.2).sum

/-- Loop accumulator `self.k_counter[k]`: number of signatures with count
exactly `k`, recorded only for counts at most `r`. -/
def kCounterD (tbl : List (String × ℕ)) (r k : ℕ) : ℕ :=
  (tbl.filter fun e => e.2 ≤ r ∧ e.2 = k).length

/-- `self.total_read_pairs = sum(self.counter.values())`. -/
def totalReadPairsD (tbl : List (String × ℕ)) : ℕ :=
  (tbl.map fun e => e.2).sum

/-- `self.total_signatures = self.singletons + self.doubletons + others`. -/
def totalSignaturesD (tbl : List (String × ℕ)) : ℕ :=
  countSingletons tbl + countDoubletons tbl + countOthers tbl

/-- `self.chao1 = self.total_signatures + self.singletons ** 2 / self.doubletons / 2`. -/
def chao1D (tbl : List (String × ℕ)) : ℚ :=
  totalSignaturesD tbl + (countSingletons tbl : ℚ) ^ 2 / countDoubletons tbl / 2

/-- `self.m_star = self.n_extrapolation - self.total_read_pairs`. -/
def mStarD (tbl : List (String × ℕ)) (n : ℤ) : ℤ :=
  n - totalReadPairsD tbl

/-- `self.f0_hat = self.chao1 - self.total_signatures`. -/
def f0HatD (tbl : List (String × ℕ)) : ℚ :=
  chao1D tbl - totalSignaturesD tbl

/-- The argument of `exp` inside `Lcadre.calc_s_ind`:
`-1 * self.m_star / self.total_read_pairs * self.singletons / f0_hat`. -/
def expArgD (tbl : List (String × ℕ)) (n : ℤ) (f0_hat : ℚ) : ℚ :=
  -1 * (mStarD tbl n : ℚ) / (totalReadPairsD tbl : ℚ) * (countSingletons tbl : ℚ) / f0_hat

/-- `Lcadre.calc_s_ind`:
`s_ind = total_signatures + f0_hat * (1 - exp(-1 * m_star / total_read_pairs * singletons / f0_hat))`. -/
noncomputable def calc_s_ind (tbl : List (String × ℕ)) (n : ℤ) (f0_hat : ℚ) : ℝ :=
  (totalSignaturesD tbl : ℝ) + (f0_hat : ℝ) * (1 - Real.exp (expArgD tbl n f0_hat : ℚ))

/-- `self.s_ind = self.calc_s_ind(self.f0_hat)`. -/
noncomputable def sIndD (tbl : List (String × ℕ)) (n : ℤ) : ℝ :=
  calc_s_ind tbl n (f0HatD tbl)

/-- `self.dup_rate_obs = 1 - self.total_signatures / self.total_read_pairs`. -/
def dupRateObsD (tbl : List (String × ℕ)) : ℚ :=
  1 - (totalSignaturesD tbl : ℚ) / totalReadPairsD tbl

/-- `self.dup_rate_extrap = 1 - self.s_ind / self.n_extrapolation`. -/
noncomputable def dupRateExtrapD (tbl : List (String × ℕ)) (n : ℤ) : ℝ :=
  1 - sIndD tbl n / (n : ℝ)

/-- `self.c_ace = 1 - self.singletons / self.x_rare`. -/
def cAceD (tbl : List (String × ℕ)) (r : ℕ) : ℚ :=
  1 - (countSingletons tbl : ℚ) / (xRareD tbl r : ℚ)

/-- `top_sum = sum(k * (k - 1) * self.k_counter[k] for k in range(1, self.r_cutoff + 1))`. -/
def topSumD (tbl : List (String × ℕ)) (r : ℕ) : ℤ :=
  ((List.range' 1 r).map fun k : ℕ => (k : ℤ) * ((k : ℤ) - 1) * (kCounterD tbl r k : ℤ)).sum

/-- `bot_sum = sum(k * self.k_counter[k] * (k * self.k_counter[k] - 1) for k in range(1, self.r_cutoff + 1))`. -/
def botSumD (tbl : List (String × ℕ)) (r : ℕ) : ℤ :=
  ((List.range' 1 r).map fun k : ℕ =>
    (k : ℤ) * (kCounterD tbl r k : ℤ) * ((k : ℤ) * (kCounterD tbl r k : ℤ) - 1)).sum

/-- Python's built-in `max(x, y)` on two rationals. -/
def pyMax (x y : ℚ) : ℚ := if x < y then y else x

/-- `self.cov_var_sq = max(self.s_rare / self.c_ace * top_sum / bot_sum - 1, 0)`. -/
def covVarSqD (tbl : List (String × ℕ)) (r : ℕ) : ℚ :=
  pyMax ((sRareD tbl r : ℚ) / cAceD tbl r * (topSumD tbl r : ℚ) / (botSumD tbl r : ℚ) - 1) 0

/-- `self.f0_hat_ace = self.s_rare / self.c_ace + self.singletons / self.c_ace * self.cov_var_sq - self.s_rare`. -/
def f0HatAceD (tbl : List (String × ℕ)) (r : ℕ) : ℚ :=
  (sRareD tbl r : ℚ) / cAceD tbl r
    + (countSingletons tbl : ℚ) / cAceD tbl r * covVarSqD tbl r - (sRareD tbl r : ℚ)

/-- `self.ace = self.f0_hat_ace + self.total_signatures`. -/
def aceD (tbl : List (String × ℕ)) (r : ℕ) : ℚ :=
  f0HatAceD tbl r + (totalSignaturesD tbl : ℚ)

/-- `self.s_ind_ace = self.calc_s_ind(self.f0_hat_ace)`. -/
noncomputable def sIndAceD (tbl : List (String × ℕ)) (n : ℤ) (r : ℕ) : ℝ :=
  calc_s_ind tbl n (f0HatAceD tbl r)

/-- `self.dup_rate_extrap_ace = 1 - self.s_ind_ace / self.n_extrapolation`. -/
noncomputable def dupRateExtrapAceD (tbl : List (String × ℕ)) (n : ℤ) (r : ℕ) : ℝ :=
  1 - sIndAceD tbl n r / (n : ℝ)

/-- The scalar fields `perform_estimation` sets on `self` (its
`EstimationResult`), except the four `exp`-dependent reals, which are
`sIndD`, `dupRateExtrapD`, `sIndAceD`, `dupRateExtrapAceD` of the table. -/
structure EstCore where
  singletons : ℕ
  doubletons : ℕ
  s_rare : ℕ
  x_rare : ℕ
  total_read_pairs : ℕ
  total_signatures : ℕ
  chao1 : ℚ
  m_star : ℤ
  f0_hat : ℚ
  dup_rate_obs : ℚ
  c_ace : ℚ
  top_sum : ℤ
  bot_sum : ℤ
  cov_var_sq : ℚ
  f0_hat_ace : ℚ
  ace : ℚ
deriving DecidableEq, Repr

/-- The bundle of scalars a successful `perform_estimation` run sets. -/
def estCoreOf (tbl : List (String × ℕ)) (n : ℤ) (r : ℕ) : EstCore :=
  { singletons := countSingletons tbl
    doubletons := countDoubletons tbl
    s_rare := sRareD tbl r
    x_rare := xRareD tbl r
    total_read_pairs := totalReadPairsD tbl
    total_signatures := totalSignaturesD tbl
    chao1 := chao1D tbl
    m_star := mStarD tbl n
    f0_hat := f0HatD tbl
    dup_rate_obs := dupRateObsD tbl
    c_ace := cAceD tbl r
    top_sum := topSumD tbl r
    bot_sum := botSumD tbl r
    cov_var_sq := covVarSqD tbl r
    f0_hat_ace := f0HatAceD tbl r
    ace := aceD tbl r }

/-- `Lcadre.perform_estimation` on a frozen table.  Every `if` tests one
divisor for zero at exactly the program point where Python executes the
corresponding division (in source order): the explicit doubleton guard,
then `calc_s_ind(f0_hat)`'s divisions by `total_read_pairs` and `f0_hat`,
`dup_rate_extrap`'s division by `n_extrapolation`, `c_ace`'s division by
`x_rare`, `cov_var_sq`'s divisions by `c_ace` and `bot_sum`, and
`calc_s_ind(f0_hat_ace)`'s division by `f0_hat_ace`.  Divisors that were
already tested on the same path are not re-tested. -/
def perform_estimation (tbl : List (String × ℕ)) (n : ℤ) (r : ℕ) :
    Except PyErr EstCore :=
  if countDoubletons tbl = 0 then
    .error (.zeroDivision "No doubletons found. Likely due to too few reads.")
  else if totalReadPairsD tbl = 0 then
    .error (.zeroDivision "division by zero")
  else if f0HatD tbl = 0 then
    .error (.zeroDivision "division by zero")
  else if n = 0 then
    .error (.zeroDivision "division by zero")
  else if xRareD tbl r = 0 then
    .error (.zeroDivision "division by zero")
  else if cAceD tbl r = 0 then
    .error (.zeroDivision "division by zero")
  else if botSumD tbl r = 0 then
    .error (.zeroDivision "division by zero")
  else if f0HatAceD tbl r = 0 then
    .error (.zeroDivision "division by zero")
  else
    .ok (estCoreOf tbl n r)

/-- `Except.isOk` for our result type. -/
def estOk : Except PyErr EstCore → Bool
  | .ok _ => true
  | .error _ => false

/-! ## Construction (`Lcadre.__init__`) -/

/-- `ALLOWED_FILE_TYPES`. -/
def ALLOWED_FILE_TYPES : List String := ["sam", "bam", "cram"]

/-- `MODE_DICT`. -/
def MODE_DICT : String → Option String := fun ft =>
  if ft = "sam" then some "r"
  else if ft = "bam" then some "rb"
  else if ft = "cram" then some "rc"
  else none

/-- Index of the last occurrence of `c` in `l`, or `-1` (Python `str.rfind`). -/
def pyRfind (l : List Char) (c : Char) : Int :=
  match l.reverse.findIdx? (fun x => x = c) with
  | none => -1
  | some i => (l.length : Int) - 1 - i

/-- The extension part of `os.path.splitext` (posixpath): the suffix from the
last dot, provided that dot lies after the last path separator and the
basename has a non-dot character before it. -/
def splitext_ext (p : String) : String :=
  let l := p.data
  let sepIndex := pyRfind l '/'
  let dotIndex := pyRfind l '.'
  if sepIndex < dotIndex then
    if ((l.drop (sepIndex + 1).toNat).take (dotIndex - sepIndex - 1).toNat).any
        (fun x => x ≠ '.') then
      String.mk (l.drop dotIndex.toNat)
    else ""
  else ""

/-- Python `s.lstrip(".")`. -/
def lstripDot (s : String) : String :=
  String.mk (s.data.dropWhile (fun x => x = '.'))

/-- The state `Lcadre.__init__` builds (`self` after construction). -/
structure LcadreState where
  alignment_file : String
  n_extrapolation : ℤ
  file_type : String
  open_mode : String
  counter : Multiset String
  r_cutoff : ℕ
deriving DecidableEq

/-- `Lcadre.__init__`.  `kwargs` models the `**kwargs` parameter: the body
never reads it.  Raises `ValueError` on an unsupported file type; always
sets `self.r_cutoff = 10` (the Chao and Shen 2004 recommendation). -/
def Lcadre.init (alignment_file : String) (n_extrapolation : ℤ)
    (file_type : String := "infer") (kwargs : List (String × ℤ) := []) :
    Except PyErr LcadreState :=
  if file_type = "infer" then
    let ft := lstripDot (splitext_ext alignment_file)
    if ¬ ALLOWED_FILE_TYPES.contains ft then
      .error (.valueError
        ("File type must be in " ++ toString ALLOWED_FILE_TYPES
          ++ ", instead it is " ++ file_type))
    else
      .ok { alignment_file := alignment_file
            n_extrapolation := n_extrapolation
            file_type := ft
            open_mode := (MODE_DICT ft).getD ""
            counter := 0
            r_cutoff := 10 }
  else if ¬ ALLOWED_FILE_TYPES.contains file_type then
    .error (.valueError
      ("File type must be in " ++ toString ALLOWED_FILE_TYPES
        ++ ", instead it is " ++ file_type))
  else
    .ok { alignment_file := alignment_file
          n_extrapolation := n_extrapolation
          file_type := file_type
          open_mode := (MODE_DICT file_type).getD ""
          counter := 0
          r_cutoff := 10 }

/-- The estimation as invoked by `Lcadre.run` on a constructed instance:
`perform_estimation` reads `self.n_extrapolation` and `self.r_cutoff`. -/
def Lcadre.run_estimation (st : LcadreState) (tbl : List (String × ℕ)) :
    Except PyErr EstCore :=
  perform_estimation tbl st.n_extrapolation st.r_cutoff

/-- The mate-ordering decision rule exactly as the specification words it
(spec 4.2), independent of the source: both references absent or only the
second absent keeps the order; only the first absent flips; both present
and different flips iff the first is lexically greater; equal references
flip iff the first position is absent and the second present, or both are
present and the first is greater. -/
def orderSpecFlip (ra : Option String) (pa : Option Int)
    (rb : Option String) (pb : Option Int) : Bool :=
  match ra, rb with
  | none, none => false
  | some _, none => false
  | none, some _ => true
  | some a, some b =>
    if a = b then
      match pa, pb with
      | none, some _ => true
      | some x, some y => decide (y < x)
      | _, _ => false
    else decide (pyStrLt b a)

/-- A forward-strand read at start 100 with 10 leading soft-clipped bases. -/
def recFwd : AlignedSegment :=
  { query_name := "f"
    reference_name := some "chr1"
    reference_start := some 100
    reference_end := some 200
    is_reverse := false
    query_alignment_start := 10 }

/-- A reverse-strand read at end 200 with 10 leading soft-clipped bases. -/
def recRev : AlignedSegment :=
  { query_name := "r"
    reference_name := some "chr1"
    reference_start := some 100
    reference_end := some 200
    is_reverse := true
    query_alignment_start := 10 }

/-- An unmapped read (all optional fields absent). -/
def recBlank : AlignedSegment := { query_name := "b" }

/-- Forward-strand read mapped to chr1 with corrected 5' position 100. -/
def sigRecA : AlignedSegment :=
  { query_name := "q"
    reference_name := some "chr1"
    reference_start := some 100
    reference_end := some 150
    is_reverse := false
    query_alignment_start := 0 }

/-- Reverse-strand read mapped to chr1 with corrected 5' position 100. -/
def sigRecB : AlignedSegment :=
  { query_name := "q"
    reference_name := some "chr1"
    reference_start := some 60
    reference_end := some 100
    is_reverse := true
    query_alignment_start := 0 }

/-- The state built by `Lcadre.init "reads.bam" 100000000 "bam"` with the
extra keyword argument `r_cutoff = 5`. -/
def stW : LcadreState :=
  { alignment_file := "reads.bam"
    n_extrapolation := 100000000
    file_type := "bam"
    open_mode := "rb"
    counter := 0
    r_cutoff := 10 }

/-- Primary record named n1. -/
def recP : AlignedSegment := { query_name := "n1" }

/-- Second primary record named n1. -/
def recQ : AlignedSegment := { query_name := "n1" }

/-- A secondary record. -/
def recSec : AlignedSegment := { query_name := "n2", is_secondary := true }

/-- A primary record with a different name. -/
def recOther : AlignedSegment := { query_name := "n3" }

/-- A small concrete frequency table: one doubleton, one singleton. -/
def tblW : List (String × ℕ) := [("a", 2), ("b", 1)]

/-- The blank pair used for counter examples. -/
def pairBlank : AlignedSegment × AlignedSegment := (recBlank, recBlank)

/-- The worked example's frequency table: items `[1, 1, 2, 4, 1, 3, 4, 5, 0]`
counted into a `Counter` give the keys 1, 2, 4, 3, 5, 0 with counts
3, 1, 2, 1, 1, 1 (in insertion order). -/
def tbl3 : List (String × ℕ) := [("1", 3), ("2", 1), ("4", 2), ("3", 1), ("5", 1), ("0", 1)]

/-! ## Theorems -/

/-- `pyMax` is the lattice `max`. -/
theorem pyMax_eq_max (x y : ℚ) : pyMax x y = max x y := by
  unfold pyMax
  rcases lt_trichotomy x y with h | h | h
  · rw [if_pos h, max_eq_right h.le]
  · subst h
    simp
  · rw [if_neg (not_lt.mpr h.le), max_eq_left h.le]

/-! ## Helper lemmas -/

/-- A list containing a member satisfying the filter has a nonempty filter. -/
theorem one_le_length_filter {α : Type} {p : α → Bool} {l : List α} (e : α)
    (he : e ∈ l) (hp : p e = true) : 1 ≤ (l.filter p).length :=
  List.length_pos.mpr (List.ne_nil_of_mem (List.mem_filter.mpr ⟨he, hp⟩))

/-- A member of a list of naturals is at most the list's sum. -/
theorem le_sum_of_mem {l : List ℕ} {x : ℕ} (h : x ∈ l) : x ≤ l.sum := by
  induction l with
  | nil => cases h
  | cons a t ih =>
    rcases List.mem_cons.mp h with rfl | h'
    · simp
    · rw [List.sum_cons]
      exact le_add_left (ih h')

/-- A table with a nonzero doubleton count has an entry of count two. -/
theorem exists_doubleton (tbl : List (String × ℕ)) (h : countDoubletons tbl ≠ 0) :
    ∃ e ∈ tbl, e.2 = 2 := by
  unfold countDoubletons at h
  obtain ⟨e, he⟩ := List.exists_mem_of_ne_nil _ (List.ne_nil_of_length_pos (Nat.pos_of_ne_zero h))
  obtain ⟨h1, h2⟩ := List.mem_filter.mp he
  exact ⟨e, h1, by simpa using h2⟩

/-- A doubleton contributes two to the rare abundance when the cutoff admits
count two. -/
theorem two_le_xRareD (tbl : List (String × ℕ)) {r : ℕ} (hr : 2 ≤ r)
    (h : ∃ e ∈ tbl, e.2 = 2) : 2 ≤ xRareD tbl r := by
  obtain ⟨e, he, h2⟩ := h
  have hf : e ∈ tbl.filter fun e => e.2 ≤ r := by
    refine List.mem_filter.mpr ⟨he, ?_⟩
    simp [h2]
    omega
  have hm : e.2 ∈ (tbl.filter fun e => e.2 ≤ r).map fun e => e.2 :=
    List.mem_map_of_mem _ hf
  have := le_sum_of_mem hm
  unfold xRareD
  omega

/-- With no doubletons `perform_estimation` fails at the doubleton guard. -/
theorem perform_estimation_no_doubletons (tbl : List (String × ℕ)) (n : ℤ) (r : ℕ)
    (h : countDoubletons tbl = 0) :
    perform_estimation tbl n r
      = .error (.zeroDivision "No doubletons found. Likely due to too few reads.") := by
  simp [perform_estimation, h]

/-! ## C2 -/

/-- C2: for every frozen frequency table, estimation fails with the
statistical-degeneracy error when the doubleton count is zero, producing no
result; in particular the empty table fails the same way. -/
theorem estimation_degenerate_without_doubletons (tbl : List (String × ℕ))
    (n : ℤ) (r : ℕ) (h : countDoubletons tbl = 0) :
    perform_estimation tbl n r
      = .error (.zeroDivision "No doubletons found. Likely due to too few reads.")
    ∧ (∀ c : EstCore, perform_estimation tbl n r ≠ .ok c)
    ∧ perform_estimation ([] : List (String × ℕ)) n r
      = .error (.zeroDivision "No doubletons found. Likely due to too few reads.") := by
  refine ⟨perform_estimation_no_doubletons tbl n r h, ?_, perform_estimation_no_doubletons [] n r rfl⟩
  intro c hc
  rw [perform_estimation_no_doubletons tbl n r h] at hc
  exact Except.noConfusion hc

/-- C2, witness: a table of one singleton has no doubletons and fails. -/
theorem estimation_degenerate_without_doubletons_witness :
    perform_estimation [("a", 1)] 3 10
      = .error (.zeroDivision "No doubletons found. Likely due to too few reads.") :=
  (estimation_degenerate_without_doubletons [("a", 1)] 3 10 (by decide)).1

/-! ## C8 -/

/-- C8: for every frozen frequency table, zero rare abundance (`x_rare = 0`
at the fixed cutoff 10) makes the estimation fail with a
statistical-degeneracy `ZeroDivisionError`: zero rare abundance forces zero
doubletons (a doubleton would contribute 2), so the run aborts at the
doubleton guard before `c_ace`'s division by `x_rare` is reached. -/
theorem ace_degenerate_on_zero_rare_abundance (tbl : List (String × ℕ))
    (n : ℤ) (h : xRareD tbl 10 = 0) :
    ∃ msg, perform_estimation tbl n 10 = .error (.zeroDivision msg) := by
  have hd : countDoubletons tbl = 0 := by
    by_contra hd
    have h2 := @two_le_xRareD tbl 10 (by norm_num) (exists_doubleton tbl hd)
    omega
  exact ⟨_, perform_estimation_no_doubletons tbl n 10 hd⟩

/-- C8, witness: the empty table has zero rare abundance and fails. -/
theorem ace_degenerate_on_zero_rare_abundance_witness :
    ∃ msg, perform_estimation ([] : List (String × ℕ)) 5 10
      = .error (.zeroDivision msg) :=
  ace_degenerate_on_zero_rare_abundance [] 5 (by decide)

/-! ## C4 -/

/-- C4: `order_pair` implements exactly the specification's priority rule:
it flips the pair precisely when `orderSpecFlip` says so and otherwise
keeps the given order. -/
theorem order_pair_follows_priority_rule (read_a : AlignedSegment) (pos_a : Option Int)
    (read_b : AlignedSegment) (pos_b : Option Int) :
    order_pair read_a pos_a read_b pos_b =
      if orderSpecFlip read_a.reference_name pos_a read_b.reference_name pos_b then
        (read_b, pos_b, read_a, pos_a)
      else (read_a, pos_a, read_b, pos_b) := by
  have h : order_pair_flip read_a pos_a read_b pos_b
      = orderSpecFlip read_a.reference_name pos_a read_b.reference_name pos_b := by
    unfold order_pair_flip orderSpecFlip
    rcases read_a.reference_name with _ | a <;> rcases read_b.reference_name with _ | b
    · simp
    · simp
    · simp
    · simp only [Option.some.injEq, reduceCtorEq]
      by_cases hab : a = b
      · subst hab
        have hirr : ¬ pyStrLt a a := by
          unfold pyStrLt
          exact lt_irrefl _
        simp [optRefGt, hirr]
        rcases pos_a with _ | x <;> rcases pos_b with _ | y <;> simp [optPosGt]
      · by_cases hgt : pyStrLt b a
        · simp [optRefGt, hgt, hab]
        · simp [optRefGt, hgt, hab]
  rw [order_pair, h]

/-! ## C5 -/

/-- C5: `get_pos` returns the absent marker when the reference start or end
is absent, and otherwise `reference_end + query_alignment_start` for a
reverse-strand read and `reference_start - query_alignment_start` for a
forward-strand read. -/
theorem get_pos_soft_clip_correction (read : AlignedSegment) :
    ((read.reference_start = none ∨ read.reference_end = none) → get_pos read = none)
    ∧ (∀ s e : Int, read.reference_start = some s → read.reference_end = some e →
        get_pos read = some (if read.is_reverse then e + read.query_alignment_start
                             else s - read.query_alignment_start)) := by
  constructor
  · intro h
    simp [get_pos, h]
  · intro s e hs he
    unfold get_pos
    rw [if_neg (by simp [hs, he])]
    rcases hrev : read.is_reverse with _ | _
    · simp [hrev, hs, he]
    · simp [hrev, hs, he]

/-- C5, witness: forward start=100 clip=10 gives 90; reverse end=200
clip=10 gives 210; the unmapped read gives the absent marker. -/
theorem get_pos_soft_clip_correction_witness :
    get_pos recFwd = some 90 ∧ get_pos recRev = some 210 ∧ get_pos recBlank = none := by
  refine ⟨?_, ?_, ?_⟩
  · have h := (get_pos_soft_clip_correction recFwd).2 100 200 rfl rfl
    simpa [recFwd] using h
  · have h := (get_pos_soft_clip_correction recRev).2 100 200 rfl rfl
    simpa [recRev] using h
  · exact (get_pos_soft_clip_correction recBlank).1 (Or.inl rfl)

/-! ## C1 -/

/-- C1, evaluated at the failing input: two mates on the same reference with
equal corrected positions but opposite strands.  `order_pair` compares only
reference names and positions, never strand, so it keeps the given order for
both input orders and `process_pair` builds two different signature keys for
the same mate pair; the compound signature is not symmetric under swapping
the inputs. -/
theorem pair_signature_asymmetric_at_strand_tie :
    pair_key sigRecA sigRecB = "chr1.100.+.chr1.100.-"
    ∧ pair_key sigRecB sigRecA = "chr1.100.-.chr1.100.+"
    ∧ pair_key sigRecA sigRecB ≠ pair_key sigRecB sigRecA
    ∧ order_pair sigRecA (get_pos sigRecA) sigRecB (get_pos sigRecB)
        = (sigRecA, get_pos sigRecA, sigRecB, get_pos sigRecB)
    ∧ order_pair sigRecB (get_pos sigRecB) sigRecA (get_pos sigRecA)
        = (sigRecB, get_pos sigRecB, sigRecA, get_pos sigRecA) :=
  ⟨by decide, by decide, by decide, by decide, by decide⟩

/-! ## C9 -/

/-- C9, counterexample: a caller passing `r_cutoff = 5` as a keyword argument
still gets an instance whose rare cutoff is 10 — the constructor ignores
`kwargs` and hard-codes `self.r_cutoff = 10`, so the rare/common cutoff is
not an exposed configuration parameter. -/
theorem r_cutoff_ignores_caller_value :
    Lcadre.init "reads.bam" 100000000 "bam" [("r_cutoff", 5)] = .ok stW
    ∧ stW.r_cutoff = 10 ∧ stW.r_cutoff ≠ 5 :=
  ⟨rfl, rfl, by decide⟩

/-- C9, amended: the rare cutoff is fixed, not configurable: every
successfully constructed instance has `r_cutoff = 10` regardless of the
arguments supplied, and the estimation run on that instance uses 10 as the
rare-class threshold. -/
theorem r_cutoff_fixed_at_ten (f : String) (n : ℤ) (ft : String)
    (kwargs : List (String × ℤ)) (st : LcadreState)
    (h : Lcadre.init f n ft kwargs = .ok st) :
    st.r_cutoff = 10
    ∧ ∀ tbl, Lcadre.run_estimation st tbl = perform_estimation tbl st.n_extrapolation 10 := by
  unfold Lcadre.init at h
  split at h
  · simp only [] at h
    split at h
    · exact Except.noConfusion h
    · injection h with h'
      subst h'
      exact ⟨rfl, fun tbl => rfl⟩
  · split at h
    · exact Except.noConfusion h
    · injection h with h'
      subst h'
      exact ⟨rfl, fun tbl => rfl⟩

/-- C9, witness for the amended statement at a concrete construction. -/
theorem r_cutoff_fixed_at_ten_witness :
    ∃ st : LcadreState, Lcadre.init "x.bam" 100 "bam" [] = .ok st
      ∧ st.r_cutoff = 10 := by
  refine ⟨{ alignment_file := "x.bam"
            n_extrapolation := 100
            file_type := "bam"
            open_mode := "rb"
            counter := 0
            r_cutoff := 10 }, rfl, ?_⟩
  exact (r_cutoff_fixed_at_ten "x.bam" 100 "bam" [] _ rfl).1

/-! ## C6 -/

/-- End of stream: a trailing unpaired pending record is dropped. -/
theorem aux_nil (pending : Option AlignedSegment) : pair_generator_aux pending [] = [] := rfl

/-- A secondary or supplementary record is discarded. -/
theorem aux_discard (pending : Option AlignedSegment) (r : AlignedSegment)
    (rest : List AlignedSegment) (hf : (r.is_secondary || r.is_supplementary) = true) :
    pair_generator_aux pending (r :: rest) = pair_generator_aux pending rest := by
  simp [pair_generator_aux, hf]

/-- With no pending record, a surviving record becomes pending. -/
theorem aux_start (r : AlignedSegment) (rest : List AlignedSegment)
    (hf : (r.is_secondary || r.is_supplementary) = false) :
    pair_generator_aux none (r :: rest) = pair_generator_aux (some r) rest := by
  simp [pair_generator_aux, hf]

/-- A surviving record with the pending record's query name is emitted as a
pair and the pending slot cleared. -/
theorem aux_emit (ra r : AlignedSegment) (rest : List AlignedSegment)
    (hf : (r.is_secondary || r.is_supplementary) = false)
    (hq : r.query_name = ra.query_name) :
    pair_generator_aux (some ra) (r :: rest) = (ra, r) :: pair_generator_aux none rest := by
  simp [pair_generator_aux, hf, hq]

/-- A surviving record with a different query name replaces the pending
record, silently dropping the unpaired one. -/
theorem aux_replace (ra r : AlignedSegment) (rest : List AlignedSegment)
    (hf : (r.is_secondary || r.is_supplementary) = false)
    (hq : r.query_name ≠ ra.query_name) :
    pair_generator_aux (some ra) (r :: rest) = pair_generator_aux (some r) rest := by
  simp [pair_generator_aux, hf, hq]

/-- Every pair the generator emits consists of two surviving records with
equal query names, provided the pending record (if any) survives filtering. -/
theorem pair_generator_aux_sound :
    ∀ (reads : List AlignedSegment) (pending : Option AlignedSegment),
      (∀ p, pending = some p → (p.is_secondary || p.is_supplementary) = false) →
      ∀ a b : AlignedSegment, (a, b) ∈ pair_generator_aux pending reads →
        a.query_name = b.query_name
        ∧ (a.is_secondary || a.is_supplementary) = false
        ∧ (b.is_secondary || b.is_supplementary) = false := by
  intro reads
  induction reads with
  | nil =>
    intro pending _ a b h
    rw [aux_nil] at h
    cases h
  | cons r rest ih =>
    intro pending hp a b h
    by_cases hf : (r.is_secondary || r.is_supplementary) = true
    · rw [aux_discard pending r rest hf] at h
      exact ih pending hp a b h
    · have hf' : (r.is_secondary || r.is_supplementary) = false :=
        Bool.not_eq_true _ |>.mp hf
      cases pending with
      | none =>
        rw [aux_start r rest hf'] at h
        exact ih (some r) (fun p hp' => by cases hp'; exact hf') a b h
      | some ra =>
        by_cases hq : r.query_name = ra.query_name
        · rw [aux_emit ra r rest hf' hq] at h
          rcases List.mem_cons.mp h with heq | h'
          · have ha : a = ra := congrArg Prod.fst heq
            have hb : b = r := congrArg Prod.snd heq
            subst ha
            subst hb
            exact ⟨hq.symm, hp a rfl, hf'⟩
          · exact ih none (fun p hp' => by cases hp') a b h'
        · rw [aux_replace ra r rest hf' hq] at h
          exact ih (some r) (fun p hp' => by cases hp'; exact hf') a b h

/-- C6: the pair stream consumer discards secondary/supplementary records,
emits `(pending, next)` exactly when the next surviving record's query name
equals the pending record's, otherwise replaces pending, and drops a
trailing unpaired record at end of stream; consequently every emitted pair
has matching query names and both members are primary. -/
theorem pair_stream_consumer_contract :
    (∀ (pending : Option AlignedSegment) (r : AlignedSegment) rest,
        (r.is_secondary || r.is_supplementary) = true →
        pair_generator_aux pending (r :: rest) = pair_generator_aux pending rest)
    ∧ (∀ (ra r : AlignedSegment) rest, (r.is_secondary || r.is_supplementary) = false →
        r.query_name = ra.query_name →
        pair_generator_aux (some ra) (r :: rest) = (ra, r) :: pair_generator_aux none rest)
    ∧ (∀ (ra r : AlignedSegment) rest, (r.is_secondary || r.is_supplementary) = false →
        r.query_name ≠ ra.query_name →
        pair_generator_aux (some ra) (r :: rest) = pair_generator_aux (some r) rest)
    ∧ (∀ (r : AlignedSegment) rest, (r.is_secondary || r.is_supplementary) = false →
        pair_generator_aux none (r :: rest) = pair_generator_aux (some r) rest)
    ∧ (∀ pending, pair_generator_aux pending [] = [])
    ∧ (∀ (reads : List AlignedSegment) (a b : AlignedSegment),
        (a, b) ∈ pair_generator reads →
        a.query_name = b.query_name
        ∧ (a.is_secondary || a.is_supplementary) = false
        ∧ (b.is_secondary || b.is_supplementary) = false) :=
  ⟨aux_discard, aux_emit, aux_replace, aux_start, aux_nil,
   fun reads a b h =>
     pair_generator_aux_sound reads none (fun p hp => by cases hp) a b h⟩

/-- C6, witness: each contract clause applied at concrete records. -/
theorem pair_stream_consumer_contract_witness :
    pair_generator_aux (some recP) [recQ] = [(recP, recQ)]
    ∧ pair_generator_aux (some recP) [recSec] = pair_generator_aux (some recP) []
    ∧ pair_generator_aux (some recP) [recOther] = pair_generator_aux (some recOther) []
    ∧ pair_generator_aux none [recP] = pair_generator_aux (some recP) []
    ∧ recP.query_name = recQ.query_name := by
  refine ⟨?_, ?_, ?_, ?_, ?_⟩
  · exact pair_stream_consumer_contract.2.1 recP recQ [] (by decide) (by decide)
  · exact pair_stream_consumer_contract.1 (some recP) recSec [] (by decide)
  · exact pair_stream_consumer_contract.2.2.1 recP recOther [] (by decide) (by decide)
  · exact pair_stream_consumer_contract.2.2.2.1 recP [] (by decide)
  · exact (pair_stream_consumer_contract.2.2.2.2.2 [recP, recQ] recP recQ (by decide)).1

/-! ## C7 -/

/-- When no divisor is zero, `perform_estimation` succeeds and returns the
full bundle of scalars. -/
theorem perform_estimation_ok (tbl : List (String × ℕ)) (n : ℤ) (r : ℕ)
    (h1 : countDoubletons tbl ≠ 0) (h2 : totalReadPairsD tbl ≠ 0)
    (h3 : f0HatD tbl ≠ 0) (h4 : n ≠ 0) (h5 : xRareD tbl r ≠ 0)
    (h6 : cAceD tbl r ≠ 0) (h7 : botSumD tbl r ≠ 0) (h8 : f0HatAceD tbl r ≠ 0) :
    perform_estimation tbl n r = .ok (estCoreOf tbl n r) := by
  unfold perform_estimation
  rw [if_neg h1, if_neg h2, if_neg h3, if_neg h4, if_neg h5, if_neg h6, if_neg h7, if_neg h8]

/-- C7: ingesting a pair increments exactly the pair's signature count by
one and changes no other count (`process_pair`'s single mutation), the sum
of all counts in the accumulated counter equals the number of read pairs
ingested, and a successful estimation reports `total_read_pairs` equal to
the sum of all table counts. -/
theorem counter_sum_invariant :
    (∀ (pairs : List (AlignedSegment × AlignedSegment)) (p : AlignedSegment × AlignedSegment),
        (counter_of (pairs ++ [p])).count (pair_key p.1 p.2)
          = (counter_of pairs).count (pair_key p.1 p.2) + 1)
    ∧ (∀ (pairs : List (AlignedSegment × AlignedSegment)) (p : AlignedSegment × AlignedSegment)
        (k : String), k ≠ pair_key p.1 p.2 →
        (counter_of (pairs ++ [p])).count k = (counter_of pairs).count k)
    ∧ (∀ (counter : Multiset String) (p : AlignedSegment × AlignedSegment),
        process_pair counter p = pair_key p.1 p.2 ::ₘ counter)
    ∧ (∀ pairs : List (AlignedSegment × AlignedSegment),
        ∑ k in (counter_of pairs).toFinset, (counter_of pairs).count k = pairs.length)
    ∧ (∀ (tbl : List (String × ℕ)) (n : ℤ) (r : ℕ) (c : EstCore),
        perform_estimation tbl n r = .ok c →
        c.total_read_pairs = (tbl.map fun e => e.2).sum) := by
  refine ⟨?_, ?_, ?_, ?_, ?_⟩
  · intro pairs p
    simp [counter_of, List.count_append]
  · intro pairs p k hk
    simp [counter_of, List.count_append, List.count_singleton, hk]
  · intro counter p
    rfl
  · intro pairs
    rw [Multiset.toFinset_sum_count_eq]
    simp [counter_of]
  · intro tbl n r c h
    unfold perform_estimation at h
    repeat' split at h
    any_goals exact Except.noConfusion h
    injection h with h'
    subst h'
    rfl

/-- Accumulator values over `tblW`. -/
theorem tblW_vals :
    countSingletons tblW = 1 ∧ countDoubletons tblW = 1 ∧ countOthers tblW = 0
    ∧ sRareD tblW 10 = 2 ∧ xRareD tblW 10 = 3 ∧ totalReadPairsD tblW = 3 := by
  decide

/-- `f0_hat` over `tblW`. -/
theorem f0HatD_tblW : f0HatD tblW = 1/2 := by
  simp only [f0HatD, chao1D, totalSignaturesD, tblW_vals.1, tblW_vals.2.1, tblW_vals.2.2.1]
  norm_num

/-- `c_ace` over `tblW`. -/
theorem cAceD_tblW : cAceD tblW 10 = 2/3 := by
  simp only [cAceD, tblW_vals.1, tblW_vals.2.2.2.2.1]
  norm_num

/-- `top_sum` and `bot_sum` over `tblW`. -/
theorem sumsW : topSumD tblW 10 = 2 ∧ botSumD tblW 10 = 2 := by decide

/-- `cov_var_sq` over `tblW`. -/
theorem covVarSqD_tblW : covVarSqD tblW 10 = 2 := by
  simp only [covVarSqD, tblW_vals.2.2.2.1, cAceD_tblW, sumsW.1, sumsW.2]
  norm_num [pyMax]

/-- `f0_hat_ace` over `tblW`. -/
theorem f0HatAceD_tblW : f0HatAceD tblW 10 = 4 := by
  simp only [f0HatAceD, tblW_vals.1, tblW_vals.2.2.2.1, cAceD_tblW, covVarSqD_tblW]
  norm_num

/-- The estimation over `tblW` succeeds. -/
theorem perfW : perform_estimation tblW 100 10 = .ok (estCoreOf tblW 100 10) := by
  refine perform_estimation_ok tblW 100 10 (by decide) (by decide) ?_ (by decide) (by decide)
    ?_ (by decide) ?_
  · rw [f0HatD_tblW]
    norm_num
  · rw [cAceD_tblW]
    norm_num
  · rw [f0HatAceD_tblW]
    norm_num

/-- C7, witness: count increment, unchanged foreign key, sum over a
one-pair ingestion, and the reported total of a concrete estimation. -/
theorem counter_sum_invariant_witness :
    (counter_of ([] ++ [pairBlank])).count "zz" = (counter_of []).count "zz"
    ∧ (estCoreOf tblW 100 10).total_read_pairs = (tblW.map fun e => e.2).sum
    ∧ ∑ k in (counter_of [pairBlank]).toFinset, (counter_of [pairBlank]).count k = 1 := by
  refine ⟨?_, ?_, ?_⟩
  · exact counter_sum_invariant.2.1 [] pairBlank "zz" (by decide)
  · exact counter_sum_invariant.2.2.2.2 tblW 100 10 _ perfW
  · exact counter_sum_invariant.2.2.2.1 [pairBlank]

/-! ## C3 -/

/-- Accumulator values over the worked example table. -/
theorem tbl3_vals :
    countSingletons tbl3 = 4 ∧ countDoubletons tbl3 = 1 ∧ countOthers tbl3 = 1
    ∧ sRareD tbl3 10 = 6 ∧ xRareD tbl3 10 = 9 ∧ totalReadPairsD tbl3 = 9
    ∧ mStarD tbl3 100000000 = 99999991
    ∧ topSumD tbl3 10 = 8 ∧ botSumD tbl3 10 = 20 := by
  decide

/-- `total_signatures` of the worked example. -/
theorem totalSignaturesD_tbl3 : totalSignaturesD tbl3 = 6 := by
  simp only [totalSignaturesD, tbl3_vals.1, tbl3_vals.2.1, tbl3_vals.2.2.1]

/-- `chao1` of the worked example. -/
theorem chao1D_tbl3 : chao1D tbl3 = 14 := by
  simp only [chao1D, totalSignaturesD_tbl3, tbl3_vals.1, tbl3_vals.2.1]
  norm_num

/-- `f0_hat` of the worked example. -/
theorem f0HatD_tbl3 : f0HatD tbl3 = 8 := by
  simp only [f0HatD, chao1D_tbl3, totalSignaturesD_tbl3]
  norm_num

/-- `dup_rate_obs` of the worked example is exactly one third. -/
theorem dupRateObsD_tbl3 : dupRateObsD tbl3 = 1/3 := by
  simp only [dupRateObsD, totalSignaturesD_tbl3, tbl3_vals.2.2.2.2.2.1]
  norm_num

/-- `c_ace` of the worked example. -/
theorem cAceD_tbl3 : cAceD tbl3 10 = 5/9 := by
  simp only [cAceD, tbl3_vals.1, tbl3_vals.2.2.2.2.1]
  norm_num

/-- `cov_var_sq` of the worked example. -/
theorem covVarSqD_tbl3 : covVarSqD tbl3 10 = 83/25 := by
  simp only [covVarSqD, tbl3_vals.2.2.2.1, cAceD_tbl3,
    tbl3_vals.2.2.2.2.2.2.2.1, tbl3_vals.2.2.2.2.2.2.2.2]
  norm_num [pyMax]

/-- `f0_hat_ace` of the worked example. -/
theorem f0HatAceD_tbl3 : f0HatAceD tbl3 10 = 3588/125 := by
  simp only [f0HatAceD, tbl3_vals.2.2.2.1, tbl3_vals.1, cAceD_tbl3, covVarSqD_tbl3]
  norm_num

/-- The argument of `exp` in `calc_s_ind(f0_hat)` on the worked example. -/
theorem expArg_tbl3 : expArgD tbl3 100000000 8 = -(99999991/18 : ℚ) := by
  simp only [expArgD, tbl3_vals.2.2.2.2.2.2.1, tbl3_vals.2.2.2.2.2.1, tbl3_vals.1]
  norm_num

/-- Closed form of `s_ind` on the worked example. -/
theorem sIndD_tbl3 : sIndD tbl3 100000000 = 14 - 8 * Real.exp (-(99999991/18 : ℝ)) := by
  unfold sIndD calc_s_ind
  rw [f0HatD_tbl3, expArg_tbl3, totalSignaturesD_tbl3]
  push_cast
  ring

/-- The exponential term of the worked example is at most `18/100000009`. -/
theorem exp_small : Real.exp (-(99999991/18 : ℝ)) ≤ (99999991/18 + 1 : ℝ)⁻¹ := by
  rw [Real.exp_neg]
  exact inv_anti₀ (by positivity) (Real.add_one_le_exp _)

/-- `s_ind` of the worked example is within `10⁻⁵` of 14. -/
theorem sInd_bound : |sIndD tbl3 100000000 - 14| < 1/100000 := by
  rw [sIndD_tbl3]
  have hEpos := Real.exp_pos (-(99999991/18 : ℝ))
  have h8 : (8 : ℝ) * Real.exp (-(99999991/18 : ℝ)) ≤ 8 * (99999991/18 + 1 : ℝ)⁻¹ := by
    nlinarith [exp_small]
  have habs : |(14 : ℝ) - 8 * Real.exp (-(99999991/18 : ℝ)) - 14|
      = 8 * Real.exp (-(99999991/18 : ℝ)) := by
    rw [show (14 : ℝ) - 8 * Real.exp (-(99999991/18 : ℝ)) - 14
        = -(8 * Real.exp (-(99999991/18 : ℝ))) by ring, abs_neg]
    exact abs_of_nonneg (by positivity)
  rw [habs]
  have : (8 : ℝ) * (99999991/18 + 1 : ℝ)⁻¹ < 1/100000 := by norm_num
  linarith

/-- `dup_rate_extrap` of the worked example is within `10⁻¹⁰` of 0.99999986. -/
theorem dupExtrap_bound :
    |dupRateExtrapD tbl3 100000000 - 99999986/100000000| < 1/(10:ℝ)^10 := by
  have h : dupRateExtrapD tbl3 100000000 - 99999986/100000000
      = 8 * Real.exp (-(99999991/18 : ℝ)) / 100000000 := by
    unfold dupRateExtrapD
    rw [sIndD_tbl3]
    push_cast
    ring
  have hEpos := Real.exp_pos (-(99999991/18 : ℝ))
  have h8 : (8 : ℝ) * Real.exp (-(99999991/18 : ℝ)) ≤ 8 * (99999991/18 + 1 : ℝ)⁻¹ := by
    nlinarith [exp_small]
  rw [h, abs_of_nonneg (by positivity)]
  have : (8 : ℝ) * (99999991/18 + 1 : ℝ)⁻¹ / 100000000 < 1/(10:ℝ)^10 := by norm_num
  linarith

/-- `dup_rate_obs` of the worked example is within `10⁻¹⁶` of the double
`0.33333333333333337` that Python prints for `1 - 6/9`. -/
theorem dupObs_bound :
    |dupRateObsD tbl3 - 33333333333333337/100000000000000000| < 1/(10:ℚ)^16 := by
  rw [dupRateObsD_tbl3, abs_sub_lt_iff]
  constructor <;> norm_num

/-- C3: on the worked example table the estimator computes singletons 4,
doubletons 1, total signatures 6, total read pairs 9, chao1 14, f0Hat 8,
mStar 99999991; the observed duplicate rate is exactly 1/3, within 10⁻¹⁶ of
the quoted double 0.33333333333333337; the run succeeds, s_ind is within
10⁻⁵ of 14 and the extrapolated duplicate rate within 10⁻¹⁰ of 0.99999986. -/
theorem estimation_worked_example :
    countSingletons tbl3 = 4 ∧ countDoubletons tbl3 = 1
    ∧ totalSignaturesD tbl3 = 6 ∧ totalReadPairsD tbl3 = 9
    ∧ chao1D tbl3 = 14 ∧ f0HatD tbl3 = 8
    ∧ mStarD tbl3 100000000 = 99999991
    ∧ dupRateObsD tbl3 = 1/3
    ∧ |dupRateObsD tbl3 - 33333333333333337/100000000000000000| < 1/(10:ℚ)^16
    ∧ perform_estimation tbl3 100000000 10 = .ok (estCoreOf tbl3 100000000 10)
    ∧ |sIndD tbl3 100000000 - 14| < 1/100000
    ∧ |dupRateExtrapD tbl3 100000000 - 99999986/100000000| < 1/(10:ℝ)^10 :=
  ⟨tbl3_vals.1, tbl3_vals.2.1, totalSignaturesD_tbl3, tbl3_vals.2.2.2.2.2.1,
   chao1D_tbl3, f0HatD_tbl3, tbl3_vals.2.2.2.2.2.2.1, dupRateObsD_tbl3, dupObs_bound,
   by
     refine perform_estimation_ok tbl3 100000000 10 (by decide) (by decide) ?_ (by decide)
       (by decide) ?_ (by decide) ?_
     · rw [f0HatD_tbl3]
       norm_num
     · rw [cAceD_tbl3]
       norm_num
     · rw [f0HatAceD_tbl3]
       norm_num,
   sInd_bound, dupExtrap_bound⟩

/-! ## C10 -/

/-- `singletons` over a cons cell. -/
theorem countSingletons_cons (e : String × ℕ) (tbl : List (String × ℕ)) :
    countSingletons (e :: tbl) = (if e.2 = 1 then 1 else 0) + countSingletons tbl := by
  by_cases h : e.2 = 1
  · simp [countSingletons, List.filter_cons, h, Nat.add_comm]
  · simp [countSingletons, List.filter_cons, h]

/-- `doubletons` over a cons cell. -/
theorem countDoubletons_cons (e : String × ℕ) (tbl : List (String × ℕ)) :
    countDoubletons (e :: tbl) = (if e.2 = 2 then 1 else 0) + countDoubletons tbl := by
  by_cases h : e.2 = 2
  · simp [countDoubletons, List.filter_cons, h, Nat.add_comm]
  · simp [countDoubletons, List.filter_cons, h]

/-- `x_rare` over a cons cell. -/
theorem xRareD_cons (e : String × ℕ) (tbl : List (String × ℕ)) (r : ℕ) :
    xRareD (e :: tbl) r = (if e.2 ≤ r then e.2 else 0) + xRareD tbl r := by
  by_cases h : e.2 ≤ r
  · simp [xRareD, List.filter_cons, h]
  · simp [xRareD, List.filter_cons, h]

/-- With all counts positive, each singleton contributes one and each
doubleton two to the rare abundance (cutoff at least two). -/
theorem sd_le_xRare {r : ℕ} (hr : 2 ≤ r) :
    ∀ tbl : List (String × ℕ), (∀ e ∈ tbl, 1 ≤ e.2) →
      countSingletons tbl + 2 * countDoubletons tbl ≤ xRareD tbl r := by
  intro tbl
  induction tbl with
  | nil =>
    intro _
    simp [countSingletons, countDoubletons, xRareD]
  | cons e rest ih =>
    intro h
    have hrest := ih (fun x hx => h x (List.mem_cons_of_mem _ hx))
    have he : 1 ≤ e.2 := h e (List.mem_cons_self _ _)
    rw [countSingletons_cons, countDoubletons_cons, xRareD_cons]
    split_ifs <;> omega

/-- The frequency histogram at 2 is the doubleton count (cutoff at least 2). -/
theorem kCounterD_two (tbl : List (String × ℕ)) {r : ℕ} (hr : 2 ≤ r) :
    kCounterD tbl r 2 = countDoubletons tbl := by
  unfold kCounterD countDoubletons
  congr 1
  apply List.filter_congr
  intro e _
  rcases eq_or_ne e.2 2 with h | h
  · simp [h, hr]
  · simp [h]

/-- `m * (m - 1)` is nonnegative for a nonnegative integer. -/
theorem mul_pred_nonneg (m : ℤ) (hm : 0 ≤ m) : 0 ≤ m * (m - 1) := by
  rcases eq_or_lt_of_le hm with h | h
  · simp [← h]
  · nlinarith

/-- With at least one doubleton, `bot_sum` at cutoff 10 is at least 2. -/
theorem botSum_ge_two (tbl : List (String × ℕ)) (hd : 1 ≤ countDoubletons tbl) :
    2 ≤ botSumD tbl 10 := by
  have hN2 : kCounterD tbl 10 2 = countDoubletons tbl := kCounterD_two tbl (by norm_num)
  have hterm : ∀ k : ℕ,
      0 ≤ (k : ℤ) * (kCounterD tbl 10 k : ℤ) * ((k : ℤ) * (kCounterD tbl 10 k : ℤ) - 1) :=
    fun k => mul_pred_nonneg _ (by positivity)
  have h2 : 2 ≤ (2 : ℤ) * (kCounterD tbl 10 2 : ℤ) * ((2 : ℤ) * (kCounterD tbl 10 2 : ℤ) - 1) := by
    have h1 : (1 : ℤ) ≤ (kCounterD tbl 10 2 : ℤ) := by
      rw [hN2]
      exact_mod_cast hd
    nlinarith
  have hrange : List.range' 1 10 = [1, 2, 3, 4, 5, 6, 7, 8, 9, 10] := rfl
  unfold botSumD
  rw [hrange]
  simp only [List.map_cons, List.map_nil, List.sum_cons, List.sum_nil]
  have t1 := hterm 1
  have t3 := hterm 3
  have t4 := hterm 4
  have t5 := hterm 5
  have t6 := hterm 6
  have t7 := hterm 7
  have t8 := hterm 8
  have t9 := hterm 9
  have t10 := hterm 10
  push_cast at h2 t1 t3 t4 t5 t6 t7 t8 t9 t10 ⊢
  linarith

/-- `f0_hat` in closed form: `singletons² / doubletons / 2`. -/
theorem f0HatD_eq (tbl : List (String × ℕ)) :
    f0HatD tbl = (countSingletons tbl : ℚ) ^ 2 / countDoubletons tbl / 2 := by
  unfold f0HatD chao1D
  ring

/-- `max(x, 0)` is nonnegative. -/
theorem pyMax_nonneg_zero (x : ℚ) : 0 ≤ pyMax x 0 := by
  unfold pyMax
  split
  · exact le_refl 0
  · linarith [not_lt.mp (by assumption : ¬ x < 0)]

/-- C10: on a table whose counts are all positive with at least one
doubleton and one singleton, and a positive extrapolation target, the whole
estimation pass divides by no zero (it returns a result through every
division): `x_rare ≥ singletons + 2`, hence `c_ace > 0`; `bot_sum ≥ 2`;
`total_read_pairs > 0`; `f0_hat > 0`; `f0_hat_ace > 0`; the ACE degeneracy
state `x_rare = 0` is unreachable once the doubleton guard has passed. -/
theorem estimation_no_division_by_zero (tbl : List (String × ℕ)) (n : ℤ)
    (hall : ∀ e ∈ tbl, 1 ≤ e.2) (hdbl : ∃ e ∈ tbl, e.2 = 2)
    (hsgl : ∃ e ∈ tbl, e.2 = 1) (hn : 0 < n) :
    perform_estimation tbl n 10 = .ok (estCoreOf tbl n 10)
    ∧ countSingletons tbl + 2 ≤ xRareD tbl 10
    ∧ 0 < cAceD tbl 10
    ∧ 2 ≤ botSumD tbl 10
    ∧ 0 < totalReadPairsD tbl
    ∧ 0 < f0HatD tbl
    ∧ 0 < f0HatAceD tbl 10 := by
  obtain ⟨ed, hed, hed2⟩ := hdbl
  obtain ⟨es, hes, hes1⟩ := hsgl
  have hs1 : 1 ≤ countSingletons tbl :=
    one_le_length_filter es hes (by simp [hes1])
  have hd1 : 1 ≤ countDoubletons tbl :=
    one_le_length_filter ed hed (by simp [hed2])
  have hsr1 : 1 ≤ sRareD tbl 10 :=
    one_le_length_filter ed hed (by simp [hed2])
  have hx : countSingletons tbl + 2 ≤ xRareD tbl 10 := by
    have := @sd_le_xRare 10 (by norm_num) tbl hall
    omega
  have hT2 : 2 ≤ totalReadPairsD tbl := by
    have hm : ed.2 ∈ tbl.map fun e => e.2 := List.mem_map_of_mem _ hed
    have := le_sum_of_mem hm
    unfold totalReadPairsD
    omega
  have hbot : 2 ≤ botSumD tbl 10 := botSum_ge_two tbl hd1
  have hs0 : (0 : ℚ) < (countSingletons tbl : ℚ) := by exact_mod_cast hs1
  have hd0 : (0 : ℚ) < (countDoubletons tbl : ℚ) := by exact_mod_cast hd1
  have hx0 : (0 : ℚ) < (xRareD tbl 10 : ℚ) := by
    have : 0 < xRareD tbl 10 := by omega
    exact_mod_cast this
  have hsx : (countSingletons tbl : ℚ) < (xRareD tbl 10 : ℚ) := by
    have : countSingletons tbl < xRareD tbl 10 := by omega
    exact_mod_cast this
  have hf0pos : 0 < f0HatD tbl := by
    rw [f0HatD_eq]
    exact div_pos (div_pos (pow_pos hs0 2) hd0) (by norm_num)
  have hcace : 0 < cAceD tbl 10 := by
    unfold cAceD
    have : (countSingletons tbl : ℚ) / (xRareD tbl 10 : ℚ) < 1 :=
      (div_lt_one hx0).mpr hsx
    linarith
  have hcace1 : cAceD tbl 10 < 1 := by
    unfold cAceD
    have : 0 < (countSingletons tbl : ℚ) / (xRareD tbl 10 : ℚ) := div_pos hs0 hx0
    linarith
  have hsr0 : (0 : ℚ) < (sRareD tbl 10 : ℚ) := by exact_mod_cast hsr1
  have hcov : 0 ≤ covVarSqD tbl 10 := pyMax_nonneg_zero _
  have hface : 0 < f0HatAceD tbl 10 := by
    unfold f0HatAceD
    have h1 : (sRareD tbl 10 : ℚ) < (sRareD tbl 10 : ℚ) / cAceD tbl 10 := by
      rw [lt_div_iff₀ hcace]
      nlinarith
    have h2 : 0 ≤ (countSingletons tbl : ℚ) / cAceD tbl 10 * covVarSqD tbl 10 :=
      mul_nonneg (div_nonneg hs0.le hcace.le) hcov
    linarith
  have hT0 : 0 < totalReadPairsD tbl := by omega
  refine ⟨?_, hx, hcace, hbot, hT0, hf0pos, hface⟩
  exact perform_estimation_ok tbl n 10 (by omega) (by omega) hf0pos.ne' (by omega)
    (by omega) hcace.ne' (by omega) hface.ne'

/-- C10, witness: the two-entry table `{a: 2, b: 1}` with target 7. -/
theorem estimation_no_division_by_zero_witness :
    perform_estimation tblW 7 10 = .ok (estCoreOf tblW 7 10)
    ∧ countSingletons tblW + 2 ≤ xRareD tblW 10
    ∧ 0 < cAceD tblW 10
    ∧ 2 ≤ botSumD tblW 10
    ∧ 0 < totalReadPairsD tblW
    ∧ 0 < f0HatD tblW
    ∧ 0 < f0HatAceD tblW 10 :=
  estimation_no_division_by_zero tblW 7 (by decide)
    ⟨("a", 2), by decide, rfl⟩ ⟨("b", 1), by decide, rfl⟩ (by decide)
